import Mathlib

/-
  Verification of the agent-loop core of the personal_cli_assistant repository.

  The definitions below are a shallow embedding of the Python sources:
    src/llm/base.py        (MessageRole, Message, LLMResponse)
    src/agent/memory.py    (ConversationMemory and its operations)
    src/tools/base.py      (ToolResult, Tool, ToolRegistry)
    src/tools/dispatcher.py (ToolCall, ToolDispatcher.execute)
    src/agent/core.py      (Agent.run, Agent.run_stream, Agent.set_memory)
  Stateful methods are modelled by explicit state passing; Python exceptions
  are modelled with Except; the LLM provider is modelled as an oracle mapping
  the 1-based loop iteration number to the outcome of llm.chat.
-/

namespace PersonalCli

/-- Role of a message, from MessageRole in src/llm/base.py. -/
inductive MessageRole where
  | system
  | user
  | assistant
  | tool
deriving DecidableEq, Repr

/-- The string value of a role (MessageRole is a str-valued enum). -/
def MessageRole.value : MessageRole → String
  | MessageRole.system => "system"
  | MessageRole.user => "user"
  | MessageRole.assistant => "assistant"
  | MessageRole.tool => "tool"

/-- Inverse of MessageRole.value: the MessageRole(s) constructor applied to a
string, returning none where Python raises ValueError. -/
def MessageRole.ofValue : String → Option MessageRole :=
  fun s =>
    if s = "system" then some MessageRole.system
    else if s = "user" then some MessageRole.user
    else if s = "assistant" then some MessageRole.assistant
    else if s = "tool" then some MessageRole.tool
    else none

/-- Arguments of a tool call as they arrive from the model: either a mapping
from parameter names to (stringified) values, or a raw string
(src/tools/dispatcher.py treats both). -/
inductive ToolArgs where
  | dict (kvs : List (String × String))
  | str (s : String)
deriving DecidableEq, Repr

/-- One entry of a tool_calls list at runtime.  dictFlat is a plain dict with
keys name/arguments/id; dictFn is a dict with a nested function dict (the
shape the serializer in memory.py emits, with the correlation id at top
level); obj is a backend object carrying a function attribute (the ollama
object shape handled by the first branch of serialize_tool_calls). -/
inductive TCEntry where
  | dictFlat (name : String) (arguments : ToolArgs) (id : Option String)
  | dictFn (name : String) (arguments : ToolArgs) (id : Option String)
  | obj (name : String) (arguments : ToolArgs)
deriving DecidableEq, Repr

/-- A conversation message, from Message in src/llm/base.py. -/
structure Message where
  role : MessageRole
  content : String
  tool_calls : Option (List TCEntry) := none
  tool_call_id : Option String := none
deriving DecidableEq, Repr

/-- Message.system from src/llm/base.py. -/
def Message.system (content : String) : Message :=
  Message.mk MessageRole.system content none none

/-- Message.user from src/llm/base.py. -/
def Message.user (content : String) : Message :=
  Message.mk MessageRole.user content none none

/-- Message.assistant from src/llm/base.py. -/
def Message.assistant (content : String) (tool_calls : Option (List TCEntry)) : Message :=
  Message.mk MessageRole.assistant content tool_calls none

/-- Message.tool_result from src/llm/base.py. -/
def Message.tool_result (content : String) (tool_call_id : String) : Message :=
  Message.mk MessageRole.tool content none (some tool_call_id)

/-- ConversationMemory from src/agent/memory.py: messages list, optional
system prompt, and the retained-message bound (default 100). -/
structure ConversationMemory where
  messages : List Message := []
  system_prompt : Option String := none
  max_messages : Nat := 100
deriving DecidableEq, Repr

/-- ConversationMemory.set_system_prompt. -/
def ConversationMemory.set_system_prompt (m : ConversationMemory) (prompt : String) :
    ConversationMemory :=
  ConversationMemory.mk m.messages (some prompt) m.max_messages

/-- ConversationMemory. trim_if_needed: drop the oldest messages once the
stored length exceeds max_messages. -/
def ConversationMemory.trim_if_needed (m : ConversationMemory) : ConversationMemory :=
  if m.messages.length > m.max_messages then
    ConversationMemory.mk (m.messages.drop (m.messages.length - m.max_messages))
      m.system_prompt m.max_messages
  else m

/-- ConversationMemory.add_user_message: append then trim. -/
def ConversationMemory.add_user_message (m : ConversationMemory) (content : String) :
    ConversationMemory :=
  (ConversationMemory.mk (m.messages ++ [Message.user content]) m.system_prompt
    m.max_messages).trim_if_needed

/-- ConversationMemory.add_assistant_message: append then trim. -/
def ConversationMemory.add_assistant_message (m : ConversationMemory) (content : String)
    (tool_calls : Option (List TCEntry)) : ConversationMemory :=
  (ConversationMemory.mk (m.messages ++ [Message.assistant content tool_calls])
    m.system_prompt m.max_messages).trim_if_needed

/-- ConversationMemory.add_tool_result: append then trim. -/
def ConversationMemory.add_tool_result (m : ConversationMemory) (content : String)
    (tool_call_id : String) : ConversationMemory :=
  (ConversationMemory.mk (m.messages ++ [Message.tool_result content tool_call_id])
    m.system_prompt m.max_messages).trim_if_needed

/-- ConversationMemory.get_messages: prepend the system prompt when it is
truthy (Python: if self.system_prompt, so the empty string is skipped). -/
def ConversationMemory.get_messages (m : ConversationMemory) : List Message :=
  match m.system_prompt with
  | some s => if s = "" then m.messages else Message.system s :: m.messages
  | none => m.messages

/-- ConversationMemory.clear: drop all messages, keep the system prompt. -/
def ConversationMemory.clear (m : ConversationMemory) : ConversationMemory :=
  ConversationMemory.mk [] m.system_prompt m.max_messages

/-! Serialization of ConversationMemory (to_dict, serialize_tool_calls,
from_dict in src/agent/memory.py). -/

/-- One element of serialize_tool_calls: a backend object with a function
attribute becomes a plain function dict holding only name and arguments;
entries that already are dicts pass through unchanged. -/
def serialize_tc : TCEntry → TCEntry
  | TCEntry.obj n a => TCEntry.dictFn n a none
  | e => e

/-- ConversationMemory. serialize_tool_calls: Python returns None when
tool_calls is falsy (None or the empty list), otherwise maps each entry
through the normalization above. -/
def serialize_tool_calls : Option (List TCEntry) → Option (List TCEntry)
  | none => none
  | some [] => none
  | some tcs => some (tcs.map serialize_tc)

/-- The per-message dict emitted by ConversationMemory.to_dict: the role as
its string value, the content, the normalized tool_calls, and the
tool_call_id. -/
structure MsgDict where
  role : String
  content : String
  tool_calls : Option (List TCEntry)
  tool_call_id : Option String
deriving DecidableEq, Repr

/-- The dict emitted by ConversationMemory.to_dict. -/
structure MemDict where
  system_prompt : Option String
  messages : List MsgDict
deriving DecidableEq, Repr

/-- ConversationMemory.to_dict from src/agent/memory.py.  Note: the
max_messages bound is not part of the serialized data. -/
def ConversationMemory.to_dict (m : ConversationMemory) : MemDict :=
  MemDict.mk m.system_prompt
    (m.messages.map (fun msg =>
      MsgDict.mk msg.role.value msg.content (serialize_tool_calls msg.tool_calls)
        msg.tool_call_id))

/-- The message-reconstruction loop of ConversationMemory.from_dict: each
entry has its role parsed by the MessageRole constructor; a bad role string
raises ValueError in Python, modelled as none. -/
def msgs_from_dicts : List MsgDict → Option (List Message)
  | [] => some []
  | md :: rest =>
    match MessageRole.ofValue md.role, msgs_from_dicts rest with
    | some r, some ms =>
        some (Message.mk r md.content md.tool_calls md.tool_call_id :: ms)
    | _, _ => none

/-- ConversationMemory.from_dict: builds cls() (so max_messages keeps its
default of 100), sets the system prompt from the data, and appends the
reconstructed messages directly (no trimming). -/
def ConversationMemory.from_dict (d : MemDict) : Option ConversationMemory :=
  (msgs_from_dicts d.messages).map
    (fun ms => ConversationMemory.mk ms d.system_prompt 100)

/-! Tools: ToolResult and registry (src/tools/base.py), ToolCall and
ToolDispatcher.execute (src/tools/dispatcher.py). -/

/-- ToolResult from src/tools/base.py.  The data payload (Python Any) is
modelled by its string rendering, which is the only way it is consumed
(str(self.data) in to_message). -/
structure ToolResult where
  success : Bool
  data : Option String := none
  error : Option String := none
deriving DecidableEq, Repr

/-- ToolResult.to_message from src/tools/base.py.  On failure Python renders
f-string Error: {self.error}, which prints the word None when error is
absent. -/
def ToolResult.to_message (r : ToolResult) : String :=
  if r.success then
    match r.data with
    | some d => d
    | none => "Operation completed successfully."
  else
    "Error: " ++ (match r.error with | some e => e | none => "None")

/-- A registered tool: its declared name and its execute body.  The body
receives the keyword arguments produced by splatting a mapping; any
exception it raises is modelled as Except.error with the exception text. -/
structure Tool where
  name : String
  run : List (String × String) → Except String ToolResult

/-- ToolRegistry from src/tools/base.py: a Python dict from name to tool,
modelled as an insertion-ordered association list.  register overwrites in
place (dict assignment keeps the original insertion position). -/
structure ToolRegistry where
  tools : List (String × Tool) := []

/-- ToolRegistry.register: last write wins, position preserved on
overwrite. -/
def ToolRegistry.register (r : ToolRegistry) (t : Tool) : ToolRegistry :=
  if r.tools.any (fun p => p.1 = t.name) then
    ToolRegistry.mk (r.tools.map (fun p => if p.1 = t.name then (t.name, t) else p))
  else
    ToolRegistry.mk (r.tools ++ [(t.name, t)])

/-- ToolRegistry.get. -/
def ToolRegistry.get (r : ToolRegistry) (n : String) : Option Tool :=
  (r.tools.find? (fun p => p.1 = n)).map (fun p => p.2)

/-- ToolRegistry.list_tools (also ToolDispatcher.get_available_tools). -/
def ToolRegistry.list_tools (r : ToolRegistry) : List String :=
  r.tools.map (fun p => p.1)

/-- ToolCall from src/tools/dispatcher.py. -/
structure ToolCall where
  name : String
  arguments : ToolArgs
  id : Option String := none
deriving DecidableEq, Repr

/-- ToolCall.from_dict from src/tools/dispatcher.py.  A dict with a function
key goes through from_ollama_response (name and arguments from the nested
dict, id from the top level); a flat dict is read directly.  The code
assumes a dict; for a backend object the same name and arguments are the
ones its attributes carry, with no id key. -/
def ToolCall.from_dict : TCEntry → ToolCall
  | TCEntry.dictFn n a i => ToolCall.mk n a i
  | TCEntry.dictFlat n a i => ToolCall.mk n a i
  | TCEntry.obj n a => ToolCall.mk n a none

/-- The errors ToolDispatcher.execute can raise (both subclass ToolError). -/
inductive ToolErr where
  | notFound (msg : String)
  | execError (toolName : String) (msg : String)
deriving DecidableEq, Repr

/-- The str() of the exceptions in src/utils/exceptions.py.  Note that
ToolNotFoundError prefixes its argument with Tool not found: even though
the dispatcher already passes a full sentence as the argument. -/
def ToolErr.message : ToolErr → String
  | ToolErr.notFound m => "Tool not found: " ++ m
  | ToolErr.execError n m => "Error executing " ++ n ++ ": " ++ m

/-- Result of json.loads on an argument string: a JSON object giving a
mapping, or some other JSON value (number, list, string, ...). -/
inductive Parsed where
  | obj (kvs : List (String × String))
  | nonObj
deriving DecidableEq, Repr

/-- The value bound to the local variable arguments at the point of the
tool.execute(**arguments) call, after the JSON-string handling. -/
inductive ResolvedArgs where
  | dict (kvs : List (String × String))
  | str (s : String)
  | nonMapping
deriving DecidableEq, Repr

/-- The argument-resolution step of ToolDispatcher.execute: a string is
passed to json.loads; on JSONDecodeError the raw string is kept; a
successful parse replaces the string with the parsed value (which need not
be a mapping). -/
def resolve_arguments (parse : String → Option Parsed) : ToolArgs → ResolvedArgs
  | ToolArgs.dict kvs => ResolvedArgs.dict kvs
  | ToolArgs.str s =>
    match parse s with
    | some (Parsed.obj kvs) => ResolvedArgs.dict kvs
    | some Parsed.nonObj => ResolvedArgs.nonMapping
    | none => ResolvedArgs.str s

/-- The message of the ToolNotFoundError the dispatcher raises for an
unregistered name: it lists the currently available tool names. -/
def notFoundMessage (reg : ToolRegistry) (name : String) : String :=
  "Tool \x27" ++ name ++ "\x27 not found. Available tools: " ++
    String.intercalate ", " reg.list_tools

/-- ToolDispatcher.execute from src/tools/dispatcher.py, parameterized by the
json.loads oracle.  An unknown name raises ToolNotFoundError whose message
lists the registered tool names.  Otherwise the arguments are resolved and
splatted into tool.execute; CPython raises TypeError when the value after
** is not a mapping, and every exception inside the try block (including
that TypeError and anything the tool body raises) is wrapped into
ToolExecutionError. -/
def ToolDispatcher.execute (parse : String → Option Parsed) (reg : ToolRegistry)
    (call : ToolCall) : Except ToolErr ToolResult :=
  match reg.get call.name with
  | none =>
    Except.error (ToolErr.notFound (notFoundMessage reg call.name))
  | some tool =>
    match resolve_arguments parse call.arguments with
    | ResolvedArgs.dict kvs =>
      match tool.run kvs with
      | Except.ok r => Except.ok r
      | Except.error e => Except.error (ToolErr.execError call.name e)
    | ResolvedArgs.str _ =>
      Except.error (ToolErr.execError call.name
        "argument after ** must be a mapping, not str")
    | ResolvedArgs.nonMapping =>
      Except.error (ToolErr.execError call.name
        "argument after ** must be a mapping")

/-! The agent loop (src/agent/core.py). -/

/-- LLMResponse from src/llm/base.py; has_tool_calls is bool(tool_calls),
i.e. nonemptiness of the list. -/
structure LLMResponse where
  content : String
  tool_calls : List TCEntry := []
deriving DecidableEq, Repr

/-- AgentResponse from src/agent/core.py. -/
structure AgentResponse where
  content : String
  tool_calls_made : List String := []
  tool_results : List ToolResult := []
deriving DecidableEq, Repr

/-- SYSTEM_PROMPT from src/agent/prompt.py. -/
def SYSTEM_PROMPT : String :=
  "You are a helpful CLI assistant with access to various tools. You can help users with:\n\n1. **Calculator**: Perform mathematical calculations (basic arithmetic, trigonometry, logarithms)\n2. **File Operations**: List directories, read files, get file info, create directories\n3. **Weather**: Get current weather information for any city\n4. **Web Search**: Search the web for information\n5. **System Info**: Get system information (CPU, memory, disk, date/time)\n\n## How to Use Tools\n\nWhen the user asks you to do something that requires a tool, use the appropriate tool. You can chain multiple tool calls if needed.\n\n## Guidelines\n\n- Be concise and helpful\n- When using file operations, always show the results clearly\n- For calculations, show both the expression and result\n- If a tool fails, explain the error and suggest alternatives\n- If you\x27re unsure which tool to use, ask for clarification\n- You can use multiple tools in sequence to answer complex questions\n\n## Response Format\n\n- Use markdown formatting for clarity\n- Use code blocks for file contents, code, or technical output\n- Use bullet points for lists\n- Keep responses focused and relevant\n\nRemember: You\x27re running as a CLI tool, so keep responses appropriately formatted for terminal display."

/-- The fixed exhaustion message returned by Agent.run when max_iterations is
reached. -/
def maxIterationsMessage : String :=
  "I apologize, but I\x27ve reached the maximum number of tool calls. Please try a simpler request."

/-- The fallback sentinel substituted for an empty final content. -/
def noResponseSentinel : String := "I don\x27t have a response."

/-- Python truthiness of an optional string: None and the empty string are
falsy. -/
def pyTruthy : Option String → Bool
  | none => false
  | some s => !(s == "")

/-- The synthesized correlation id f-string call_ iteration _ name used when
the model supplied no id for a tool call. -/
def synthId (iteration : Nat) (name : String) : String :=
  "call_" ++ toString iteration ++ "_" ++ name

/-- tool_call.id or synthesized id (Python or, so an empty-string id also
falls back to the synthesized one). -/
def effectiveId (iteration : Nat) (tc : ToolCall) : String :=
  match tc.id with
  | some s => if s = "" then synthId iteration tc.name else s
  | none => synthId iteration tc.name

/-- The try/except ToolError wrapper around dispatcher.execute in the loop:
a raised ToolError becomes ToolResult(success=False, error=str(e)). -/
def execToResult (exec : ToolCall → Except ToolErr ToolResult) (tc : ToolCall) : ToolResult :=
  match exec tc with
  | Except.ok r => r
  | Except.error e => ToolResult.mk false none (some e.message)

/-- The for-loop over response.tool_calls in Agent.run: each entry is
normalized by ToolCall.from_dict, its name recorded, the dispatcher called
(failures converted to failed ToolResults), the result recorded, and a
tool-result message appended under the effective correlation id. -/
def processRound (exec : ToolCall → Except ToolErr ToolResult) (iteration : Nat) :
    List TCEntry → ConversationMemory → List String → List ToolResult →
    ConversationMemory × List String × List ToolResult
  | [], mem, made, results => (mem, made, results)
  | e :: rest, mem, made, results =>
    let tc := ToolCall.from_dict e
    let result := execToResult exec tc
    let mem1 := mem.add_tool_result result.to_message (effectiveId iteration tc)
    processRound exec iteration rest mem1 (made ++ [tc.name]) (results ++ [result])

/-- The while-loop of Agent.run.  fuel is max_iterations minus the number of
iterations already executed; iteration is the 1-based Python counter; the
llm oracle maps the iteration number to the outcome of llm.chat (an
LLMError is Except.error with the exception text).  Returns the
AgentResponse, the final memory, and the number of model invocations
performed. -/
def runLoop (llm : Nat → Except String LLMResponse)
    (exec : ToolCall → Except ToolErr ToolResult) :
    Nat → Nat → ConversationMemory → List String → List ToolResult →
    AgentResponse × ConversationMemory × Nat
  | 0, iteration, mem, made, results =>
    (AgentResponse.mk maxIterationsMessage made results, mem, iteration)
  | Nat.succ fuel, iteration, mem, made, results =>
    match llm (iteration + 1) with
    | Except.error e =>
      (AgentResponse.mk ("Sorry, I encountered an error: " ++ e) made results,
        mem, iteration + 1)
    | Except.ok resp =>
      match resp.tool_calls with
      | [] =>
        let final := if resp.content = "" then noResponseSentinel else resp.content
        (AgentResponse.mk final made results,
          mem.add_assistant_message final none, iteration + 1)
      | tc :: rest =>
        let mem1 := mem.add_assistant_message resp.content (some (tc :: rest))
        let step := processRound exec (iteration + 1) (tc :: rest) mem1 made results
        runLoop llm exec fuel (iteration + 1) step.1 step.2.1 step.2.2

/-- Agent.run from src/agent/core.py: append the user message, then run the
bounded loop with empty per-turn accumulators. -/
def Agent.run (llm : Nat → Except String LLMResponse)
    (exec : ToolCall → Except ToolErr ToolResult) (max_iterations : Nat)
    (memory : ConversationMemory) (user_message : String) :
    AgentResponse × ConversationMemory × Nat :=
  runLoop llm exec max_iterations 0 (memory.add_user_message user_message) [] []

/-- The while-loop of Agent.run_stream.  Unlike Agent.run, the llm.chat call
is not wrapped in try/except, so an LLMError propagates out of the
generator (Except.error).  chunks is the sequence of text fragments
llm.chat_stream yields for the final round; the returned list is what the
generator yields.  Tool rounds mutate memory exactly as in Agent.run but
accumulate no per-turn name/result lists. -/
def runStreamLoop (llm : Nat → Except String LLMResponse) (chunks : List String)
    (exec : ToolCall → Except ToolErr ToolResult) :
    Nat → Nat → ConversationMemory → Except String (List String × ConversationMemory)
  | 0, _, mem =>
    Except.ok (["I apologize, but I\x27ve reached the maximum number of tool calls."], mem)
  | Nat.succ fuel, iteration, mem =>
    match llm (iteration + 1) with
    | Except.error e => Except.error e
    | Except.ok resp =>
      match resp.tool_calls with
      | [] =>
        let full := String.join chunks
        Except.ok (chunks,
          mem.add_assistant_message (if full = "" then noResponseSentinel else full) none)
      | tc :: rest =>
        let mem1 := mem.add_assistant_message resp.content (some (tc :: rest))
        let step := processRound exec (iteration + 1) (tc :: rest) mem1 [] []
        runStreamLoop llm chunks exec fuel (iteration + 1) step.1

/-- Agent.run_stream from src/agent/core.py. -/
def Agent.run_stream (llm : Nat → Except String LLMResponse) (chunks : List String)
    (exec : ToolCall → Except ToolErr ToolResult) (max_iterations : Nat)
    (memory : ConversationMemory) (user_message : String) :
    Except String (List String × ConversationMemory) :=
  runStreamLoop llm chunks exec max_iterations 0 (memory.add_user_message user_message)

/-- The state of an Agent relevant to set_memory (src/agent/core.py). -/
structure Agent where
  memory : ConversationMemory
  max_iterations : Nat
deriving DecidableEq, Repr

/-- Agent.set_memory: install the given memory, and when its system prompt is
falsy (None or empty) set the default SYSTEM_PROMPT. -/
def Agent.set_memory (a : Agent) (m : ConversationMemory) : Agent :=
  if pyTruthy m.system_prompt then
    Agent.mk m a.max_iterations
  else
    Agent.mk (m.set_system_prompt SYSTEM_PROMPT) a.max_iterations

/-! Claim C8: dispatcher behaviour on raw-string arguments. -/

/-- A registered tool that accepts free text in the sense of the spec: its
body always succeeds with a recognizable payload. -/
def echoTool : Tool :=
  Tool.mk "echo" (fun _ => Except.ok (ToolResult.mk true (some "TOOL BODY RAN") none))

/-- A registry holding only echoTool. -/
def regC8 : ToolRegistry := (ToolRegistry.mk []).register echoTool

/-- A json.loads oracle on which every parse fails (the failing input
"what is 2+2" is not valid JSON). -/
def parseFail : String → Option Parsed := fun _ => none

/-- C8 (code bug evidence): the spec says that when parsing the raw string
arguments fails, the raw string is passed through unchanged to the tool,
so the tool body runs on the free text.  In the code, the retained raw
string is then splatted with tool.execute(**arguments), which raises
TypeError for a non-mapping, and the except clause wraps it into
ToolExecutionError: the call fails before the tool body ever runs, so the
echo tool payload never appears. -/
theorem raw_string_args_execution_error :
    ToolDispatcher.execute parseFail regC8
        (ToolCall.mk "echo" (ToolArgs.str "what is 2+2") none) =
      Except.error (ToolErr.execError "echo"
        "argument after ** must be a mapping, not str") := by
  rfl

/-! Claim C9: from_dict always uses the default retained-message bound. -/

/-- C9: to_dict does not serialize max_messages (two memories differing only
in the bound serialize identically), and every memory from_dict constructs
carries the default bound 100, whatever produced the data. -/
theorem from_dict_default_bound :
    (∀ (m : ConversationMemory) (k : Nat),
        (ConversationMemory.mk m.messages m.system_prompt k).to_dict = m.to_dict) ∧
    (∀ (d : MemDict) (m : ConversationMemory),
        ConversationMemory.from_dict d = some m → m.max_messages = 100) := by
  constructor
  · intro m k
    rfl
  · intro d m h
    unfold ConversationMemory.from_dict at h
    cases hm : msgs_from_dicts d.messages with
    | none => simp [hm] at h
    | some ms =>
      simp only [hm, Option.map_some', Option.some_inj] at h
      rw [← h]

/-- Witness for C9 at a concrete serialized record. -/
theorem from_dict_default_bound_witness :
    ConversationMemory.from_dict (MemDict.mk (some "sys") []) =
        some (ConversationMemory.mk [] (some "sys") 100) ∧
      (ConversationMemory.mk [] (some "sys") 100).max_messages = 100 :=
  ⟨rfl, from_dict_default_bound.2 (MemDict.mk (some "sys") [])
    (ConversationMemory.mk [] (some "sys") 100) rfl⟩

/-! Claim C10: Agent.set_memory installs the memory and repairs a falsy
system prompt. -/

/-- C10: set_memory makes the given memory the agent memory (messages and
bound intact, max_iterations untouched); a None or empty system prompt is
replaced by the default SYSTEM_PROMPT, a non-empty one is left
unchanged. -/
theorem set_memory_spec (a : Agent) (m : ConversationMemory) :
    ((a.set_memory m).memory.messages = m.messages ∧
      (a.set_memory m).memory.max_messages = m.max_messages ∧
      (a.set_memory m).max_iterations = a.max_iterations) ∧
    (m.system_prompt = none ∨ m.system_prompt = some "" →
      (a.set_memory m).memory.system_prompt = some SYSTEM_PROMPT) ∧
    (∀ s : String, m.system_prompt = some s → s ≠ "" →
      (a.set_memory m).memory.system_prompt = some s) := by
  cases hm : m.system_prompt with
  | none =>
    have hset : a.set_memory m =
        Agent.mk (m.set_system_prompt SYSTEM_PROMPT) a.max_iterations := by
      unfold Agent.set_memory pyTruthy
      rw [hm]
      rfl
    refine ⟨⟨?_, ?_, ?_⟩, ?_, ?_⟩ <;>
      simp [hset, ConversationMemory.set_system_prompt, hm]
  | some s =>
    by_cases hs : s = ""
    · have hset : a.set_memory m =
          Agent.mk (m.set_system_prompt SYSTEM_PROMPT) a.max_iterations := by
        unfold Agent.set_memory pyTruthy
        rw [hm, hs]
        rfl
      subst hs
      refine ⟨⟨?_, ?_, ?_⟩, ?_, ?_⟩ <;>
        simp [hset, ConversationMemory.set_system_prompt, hm]
    · have hset : a.set_memory m = Agent.mk m a.max_iterations := by
        unfold Agent.set_memory pyTruthy
        rw [hm, if_pos (by simp [hs])]
      refine ⟨⟨?_, ?_, ?_⟩, ?_, ?_⟩ <;>
        simp [hset, hm, hs]

/-- Witness for C10: loading a memory with no system prompt installs the
default prompt. -/
theorem set_memory_witness :
    ((Agent.mk (ConversationMemory.mk [] none 100) 10).set_memory
        (ConversationMemory.mk [Message.user "hi"] none 50)).memory.system_prompt =
      some SYSTEM_PROMPT :=
  (set_memory_spec (Agent.mk (ConversationMemory.mk [] none 100) 10)
    (ConversationMemory.mk [Message.user "hi"] none 50)).2.1 (Or.inl rfl)

/-! Claim C7: serialization round-trip. -/

/-- MessageRole string round-trip: the enum constructor applied to the value
of a role gives back the role. -/
theorem ofValue_value (r : MessageRole) : MessageRole.ofValue r.value = some r := by
  cases r <;> rfl

/-- The name-plus-arguments content of a tool_calls field, extracted through
the same normalization the dispatcher applies (ToolCall.from_dict).  The
spec calls two tool_calls fields equivalent when they carry the same
sequence of name and arguments pairs; a falsy field (None or empty list)
carries the empty sequence. -/
def toolCallsData (o : Option (List TCEntry)) : List (String × ToolArgs) :=
  (o.getD []).map (fun e => ((ToolCall.from_dict e).name, (ToolCall.from_dict e).arguments))

/-- Normalization preserves the name and arguments of each entry. -/
theorem toolCallsData_serialize (o : Option (List TCEntry)) :
    toolCallsData (serialize_tool_calls o) = toolCallsData o := by
  match o with
  | none => rfl
  | some [] => rfl
  | some (x :: xs) =>
    simp only [serialize_tool_calls, toolCallsData, Option.getD_some, List.map_map]
    refine List.map_congr_left ?_
    intro e _
    cases e <;> rfl

/-- An entry already in plain dict form, unchanged by normalization. -/
def TCEntry.is_plain : TCEntry → Bool
  | TCEntry.obj _ _ => false
  | _ => true

/-- A message whose tool_calls field the serializer maps to itself: either
absent, or a nonempty list of plain dict entries. -/
def Message.plain (m : Message) : Bool :=
  match m.tool_calls with
  | none => true
  | some tcs => !tcs.isEmpty && tcs.all TCEntry.is_plain

/-- On plain messages the tool_calls normalization is the identity. -/
theorem serialize_tool_calls_plain (m : Message) (h : m.plain = true) :
    serialize_tool_calls m.tool_calls = m.tool_calls := by
  unfold Message.plain at h
  cases htc : m.tool_calls with
  | none => rfl
  | some tcs =>
    rw [htc] at h
    cases tcs with
    | nil => simp [List.isEmpty] at h
    | cons x xs =>
      simp only [List.all_cons, Bool.and_eq_true, List.isEmpty, Bool.not_false,
        Bool.true_and] at h
      show some (List.map serialize_tc (x :: xs)) = some (x :: xs)
      congr 1
      conv_rhs => rw [← List.map_id (x :: xs)]
      refine List.map_congr_left ?_
      intro e he
      have hp : e.is_plain = true := by
        rcases List.mem_cons.mp he with he1 | he1
        · rw [he1]; exact h.1
        · exact List.all_eq_true.mp h.2 e he1
      cases e with
      | dictFlat n a i => rfl
      | dictFn n a i => rfl
      | obj n a => simp [TCEntry.is_plain] at hp

/-- The memory a round-trip through to_dict and from_dict produces: the same
messages with their tool_calls normalized, the same system prompt, and the
from_dict default bound. -/
def roundtripped (m : ConversationMemory) : ConversationMemory :=
  ConversationMemory.mk
    (m.messages.map (fun msg =>
      Message.mk msg.role msg.content (serialize_tool_calls msg.tool_calls)
        msg.tool_call_id))
    m.system_prompt 100

/-- Deserialization succeeds on every serialized message list and reproduces
it up to tool_calls normalization. -/
theorem msgs_from_dicts_roundtrip (msgs : List Message) :
    msgs_from_dicts (msgs.map (fun msg =>
        MsgDict.mk msg.role.value msg.content (serialize_tool_calls msg.tool_calls)
          msg.tool_call_id)) =
      some (msgs.map (fun msg =>
        Message.mk msg.role msg.content (serialize_tool_calls msg.tool_calls)
          msg.tool_call_id)) := by
  induction msgs with
  | nil => rfl
  | cons m rest ih =>
    simp only [List.map_cons, msgs_from_dicts, ofValue_value, ih]

/-- C7: serializing a ConversationMemory with to_dict and deserializing with
from_dict reproduces an equivalent ordered message sequence: deserialization
always succeeds, the system prompt and every message role, content and
tool_call_id are reproduced exactly and in order, each tool_calls field
carries the same name-and-arguments sequence, and for messages whose
tool_calls are already in the normalized plain form (as to_dict itself
guarantees for replayed data) the message list is reproduced exactly. -/
theorem memory_roundtrip_spec (m : ConversationMemory) :
    ConversationMemory.from_dict m.to_dict = some (roundtripped m) ∧
    (roundtripped m).system_prompt = m.system_prompt ∧
    (roundtripped m).messages.map Message.role = m.messages.map Message.role ∧
    (roundtripped m).messages.map Message.content = m.messages.map Message.content ∧
    (roundtripped m).messages.map Message.tool_call_id =
      m.messages.map Message.tool_call_id ∧
    (roundtripped m).messages.map (fun x => toolCallsData x.tool_calls) =
      m.messages.map (fun x => toolCallsData x.tool_calls) ∧
    ((∀ x ∈ m.messages, x.plain = true) → (roundtripped m).messages = m.messages) := by
  refine ⟨?_, rfl, ?_, ?_, ?_, ?_, ?_⟩
  · unfold ConversationMemory.from_dict ConversationMemory.to_dict roundtripped
    simp only [msgs_from_dicts_roundtrip, Option.map_some']
  · simp only [roundtripped, List.map_map]
    rfl
  · simp only [roundtripped, List.map_map]
    rfl
  · simp only [roundtripped, List.map_map]
    rfl
  · simp only [roundtripped, List.map_map]
    refine List.map_congr_left ?_
    intro x _
    exact toolCallsData_serialize x.tool_calls
  · intro hplain
    unfold roundtripped
    simp only
    have : ∀ x ∈ m.messages,
        Message.mk x.role x.content (serialize_tool_calls x.tool_calls) x.tool_call_id
          = x := by
      intro x hx
      rw [serialize_tool_calls_plain x (hplain x hx)]
    calc m.messages.map _ = m.messages.map id := List.map_congr_left this
    _ = m.messages := List.map_id m.messages

/-- Witness for C7 on a memory holding one full tool-call round. -/
def memC7 : ConversationMemory :=
  ConversationMemory.mk
    [Message.user "hi",
     Message.assistant ""
       (some [TCEntry.dictFlat "calculator" (ToolArgs.dict [("expression", "2+2")])
         (some "id1")]),
     Message.tool_result "4" "id1",
     Message.assistant "The answer is 4." none]
    (some "sys") 100

/-- C7 witness: the round-trip reproduces memC7 exactly. -/
theorem memory_roundtrip_witness :
    ConversationMemory.from_dict memC7.to_dict = some memC7 := by
  rw [(memory_roundtrip_spec memC7).1]
  decide

/-! Claim C6: trimming keeps exactly the most recent max_messages messages. -/

/-- The append operations through which a ConversationMemory is mutated
(add_user_message, add_assistant_message, add_tool_result). -/
inductive MemOp where
  | user (content : String)
  | assistant (content : String) (tool_calls : Option (List TCEntry))
  | toolResult (content : String) (tool_call_id : String)
deriving DecidableEq, Repr

/-- The message an append operation appends. -/
def MemOp.message : MemOp → Message
  | MemOp.user c => Message.user c
  | MemOp.assistant c tcs => Message.assistant c tcs
  | MemOp.toolResult c i => Message.tool_result c i

/-- Apply one append operation. -/
def applyOp (m : ConversationMemory) : MemOp → ConversationMemory
  | MemOp.user c => m.add_user_message c
  | MemOp.assistant c tcs => m.add_assistant_message c tcs
  | MemOp.toolResult c i => m.add_tool_result c i

/-- Apply a sequence of append operations in order. -/
def applyOps (m : ConversationMemory) : List MemOp → ConversationMemory
  | [] => m
  | op :: rest => applyOps (applyOp m op) rest

/-- Every append operation is: append the corresponding message, then apply
the trim rule. -/
theorem applyOp_eq (m : ConversationMemory) (op : MemOp) :
    applyOp m op =
      (ConversationMemory.mk (m.messages ++ [op.message]) m.system_prompt
        m.max_messages).trim_if_needed := by
  cases op <;> rfl

/-- Trimming is the identity while the bound holds. -/
theorem trim_noop (m : ConversationMemory) (h : m.messages.length ≤ m.max_messages) :
    m.trim_if_needed = m := by
  unfold ConversationMemory.trim_if_needed
  rw [if_neg (by omega)]

/-- Dropping distributes over an append when the count stays inside the left
part. -/
theorem drop_append_le {α : Type} (l r : List α) (n : Nat) (h : n ≤ l.length) :
    (l ++ r).drop n = l.drop n ++ r := by
  induction l generalizing n with
  | nil =>
    simp only [List.length_nil, Nat.le_zero] at h
    subst h
    simp
  | cons x xs ih =>
    cases n with
    | zero => simp
    | succ k =>
      simp only [List.cons_append, List.drop_succ_cons]
      exact ih k (by simpa using h)

/-- Core trimming invariant: starting within the bound, a sequence of appends
leaves exactly the most recent max_messages-suffix of the full appended
sequence (Nat subtraction makes the drop a no-op while the bound holds),
and never touches the system prompt or the bound. -/
theorem applyOps_spec (ops : List MemOp) :
    ∀ m : ConversationMemory, m.messages.length ≤ m.max_messages →
      applyOps m ops =
        ConversationMemory.mk
          ((m.messages ++ ops.map MemOp.message).drop
            (m.messages.length + ops.length - m.max_messages))
          m.system_prompt m.max_messages := by
  induction ops with
  | nil =>
    intro m h
    have hz : m.messages.length + 0 - m.max_messages = 0 := by omega
    rw [applyOps]
    cases m
    simp_all
  | cons op rest ih =>
    intro m h
    rw [applyOps, applyOp_eq]
    by_cases hlt : m.messages.length < m.max_messages
    · rw [trim_noop _ (by simp; omega)]
      rw [ih _ (by simp; omega)]
      simp only [List.length_append, List.length_cons, List.length_nil, List.length_map,
        List.map_cons, List.append_assoc, List.singleton_append, List.length_singleton]
      congr 2
      omega
    · have heq : m.messages.length = m.max_messages := by omega
      have htr : (ConversationMemory.mk (m.messages ++ [op.message]) m.system_prompt
          m.max_messages).trim_if_needed =
          ConversationMemory.mk ((m.messages ++ [op.message]).drop 1) m.system_prompt
            m.max_messages := by
        unfold ConversationMemory.trim_if_needed
        rw [if_pos (by simp; omega)]
        simp only [List.length_append, List.length_singleton]
        congr 2
        omega
      have hli : (m.messages ++ [op.message]).drop 1 ++ rest.map MemOp.message
          = (m.messages ++ op.message :: rest.map MemOp.message).drop 1 := by
        rw [← drop_append_le (m.messages ++ [op.message]) (rest.map MemOp.message) 1
          (by simp), List.append_assoc, List.singleton_append]
      rw [htr, ih _ (by simp; omega)]
      simp only [List.length_drop, List.length_append, List.length_singleton,
        List.length_cons, List.length_nil, List.length_map, List.map_cons]
      rw [hli, List.drop_drop]
      congr 2
      omega

/-- C6: any sequence of appends that pushes the stored sequence past the
bound leaves exactly the max_messages most recent messages, in order; the
system prompt and the bound are untouched, and when the prompt is truthy
get_messages still prepends it on top of the bounded sequence, so the
prompt is neither dropped nor counted toward the bound. -/
theorem trim_keeps_most_recent (m : ConversationMemory) (ops : List MemOp)
    (h0 : m.messages.length ≤ m.max_messages)
    (hpush : m.max_messages < m.messages.length + ops.length) :
    (applyOps m ops).messages =
      (m.messages ++ ops.map MemOp.message).drop
        (m.messages.length + ops.length - m.max_messages) ∧
    (applyOps m ops).messages.length = m.max_messages ∧
    (applyOps m ops).system_prompt = m.system_prompt ∧
    (applyOps m ops).max_messages = m.max_messages ∧
    (pyTruthy m.system_prompt = true →
      (applyOps m ops).get_messages.length = m.max_messages + 1) := by
  have hs := applyOps_spec ops m h0
  have hmsg : (applyOps m ops).messages =
      (m.messages ++ ops.map MemOp.message).drop
        (m.messages.length + ops.length - m.max_messages) := by rw [hs]
  have hlen : (applyOps m ops).messages.length = m.max_messages := by
    rw [hmsg, List.length_drop, List.length_append, List.length_map]
    omega
  have hsp : (applyOps m ops).system_prompt = m.system_prompt := by rw [hs]
  have hmax : (applyOps m ops).max_messages = m.max_messages := by rw [hs]
  refine ⟨hmsg, hlen, hsp, hmax, ?_⟩
  intro htruthy
  cases hspv : m.system_prompt with
  | none => rw [hspv] at htruthy; simp [pyTruthy] at htruthy
  | some s =>
    have hne : s ≠ "" := by
      rw [hspv] at htruthy
      simpa [pyTruthy] using htruthy
    unfold ConversationMemory.get_messages
    rw [hsp, hspv]
    simp only [if_neg hne, List.length_cons, hlen]

/-- C6 witness: three appends into a bound-2 memory keep the last two
messages and the prompt. -/
theorem trim_keeps_most_recent_witness :
    (applyOps (ConversationMemory.mk [] (some "sys") 2)
        [MemOp.user "a", MemOp.user "b", MemOp.user "c"]).messages =
      [Message.user "b", Message.user "c"] := by
  rw [(trim_keeps_most_recent (ConversationMemory.mk [] (some "sys") 2)
    [MemOp.user "a", MemOp.user "b", MemOp.user "c"] (by decide) (by decide)).1]
  decide

/-! Infrastructure for the agent-loop claims: the append operations in plain
form while no trimming happens, and closed forms of one tool round. -/

/-- add_user_message is a plain append while the memory is below its bound. -/
theorem add_user_noTrim (m : ConversationMemory) (c : String)
    (h : m.messages.length < m.max_messages) :
    m.add_user_message c =
      ConversationMemory.mk (m.messages ++ [Message.user c]) m.system_prompt
        m.max_messages := by
  unfold ConversationMemory.add_user_message
  exact trim_noop _ (by simp; omega)

/-- add_assistant_message is a plain append while the memory is below its
bound. -/
theorem add_assistant_noTrim (m : ConversationMemory) (c : String)
    (tcs : Option (List TCEntry)) (h : m.messages.length < m.max_messages) :
    m.add_assistant_message c tcs =
      ConversationMemory.mk (m.messages ++ [Message.assistant c tcs]) m.system_prompt
        m.max_messages := by
  unfold ConversationMemory.add_assistant_message
  exact trim_noop _ (by simp; omega)

/-- add_tool_result is a plain append while the memory is below its bound. -/
theorem add_tool_result_noTrim (m : ConversationMemory) (c : String) (i : String)
    (h : m.messages.length < m.max_messages) :
    m.add_tool_result c i =
      ConversationMemory.mk (m.messages ++ [Message.tool_result c i]) m.system_prompt
        m.max_messages := by
  unfold ConversationMemory.add_tool_result
  exact trim_noop _ (by simp; omega)

/-- The tool names one round records, in emission order. -/
def roundNames (tcs : List TCEntry) : List String :=
  tcs.map (fun e => (ToolCall.from_dict e).name)

/-- The outcomes one round records, in emission order. -/
def roundResults (exec : ToolCall → Except ToolErr ToolResult) (tcs : List TCEntry) :
    List ToolResult :=
  tcs.map (fun e => execToResult exec (ToolCall.from_dict e))

/-- The tool-result messages one round appends, in emission order. -/
def roundMessages (exec : ToolCall → Except ToolErr ToolResult) (iteration : Nat)
    (tcs : List TCEntry) : List Message :=
  tcs.map (fun e =>
    Message.tool_result (execToResult exec (ToolCall.from_dict e)).to_message
      (effectiveId iteration (ToolCall.from_dict e)))

/-- The per-turn accumulators a round produces, independently of the memory
state. -/
theorem processRound_acc (exec : ToolCall → Except ToolErr ToolResult) (iteration : Nat) :
    ∀ (tcs : List TCEntry) (mem : ConversationMemory) (made : List String)
      (results : List ToolResult),
      (processRound exec iteration tcs mem made results).2.1 = made ++ roundNames tcs ∧
      (processRound exec iteration tcs mem made results).2.2 =
        results ++ roundResults exec tcs := by
  intro tcs
  induction tcs with
  | nil => intro mem made results; simp [processRound, roundNames, roundResults]
  | cons e rest ih =>
    intro mem made results
    rw [processRound]
    refine ⟨?_, ?_⟩
    · rw [(ih _ _ _).1]
      simp [roundNames]
    · rw [(ih _ _ _).2]
      simp [roundResults]

/-- The memory a round produces, in plain append form while no trimming
happens. -/
theorem processRound_mem_noTrim (exec : ToolCall → Except ToolErr ToolResult)
    (iteration : Nat) :
    ∀ (tcs : List TCEntry) (mem : ConversationMemory) (made : List String)
      (results : List ToolResult),
      mem.messages.length + tcs.length ≤ mem.max_messages →
      (processRound exec iteration tcs mem made results).1 =
        ConversationMemory.mk (mem.messages ++ roundMessages exec iteration tcs)
          mem.system_prompt mem.max_messages := by
  intro tcs
  induction tcs with
  | nil =>
    intro mem made results _
    rw [processRound]
    cases mem
    simp [roundMessages]
  | cons e rest ih =>
    intro mem made results hroom
    rw [processRound, add_tool_result_noTrim _ _ _ (by simp at hroom ⊢; omega)]
    rw [ih _ _ _ (by simp at hroom ⊢; omega)]
    simp [roundMessages, List.append_assoc]

/-- One loop step when the model call fails: the turn aborts with the failure
text and the accumulators so far. -/
theorem runLoop_llm_error (llm : Nat → Except String LLMResponse)
    (exec : ToolCall → Except ToolErr ToolResult) (fuel iteration : Nat)
    (mem : ConversationMemory) (made : List String) (results : List ToolResult)
    (e : String) (h : llm (iteration + 1) = Except.error e) :
    runLoop llm exec (fuel + 1) iteration mem made results =
      (AgentResponse.mk ("Sorry, I encountered an error: " ++ e) made results, mem,
        iteration + 1) := by
  simp only [runLoop, h]

/-- One loop step when the model answers without tool calls: the final
content (or the sentinel when empty) is appended and returned. -/
theorem runLoop_no_tools (llm : Nat → Except String LLMResponse)
    (exec : ToolCall → Except ToolErr ToolResult) (fuel iteration : Nat)
    (mem : ConversationMemory) (made : List String) (results : List ToolResult)
    (r : LLMResponse) (h : llm (iteration + 1) = Except.ok r)
    (htc : r.tool_calls = []) :
    runLoop llm exec (fuel + 1) iteration mem made results =
      (AgentResponse.mk (if r.content = "" then noResponseSentinel else r.content)
          made results,
        mem.add_assistant_message
          (if r.content = "" then noResponseSentinel else r.content) none,
        iteration + 1) := by
  simp only [runLoop, h, htc]

/-- One loop step when the model requests tools: the assistant message goes
in first, the round is processed, and the loop recurses. -/
theorem runLoop_tools (llm : Nat → Except String LLMResponse)
    (exec : ToolCall → Except ToolErr ToolResult) (fuel iteration : Nat)
    (mem : ConversationMemory) (made : List String) (results : List ToolResult)
    (r : LLMResponse) (tc : TCEntry) (rest : List TCEntry)
    (h : llm (iteration + 1) = Except.ok r) (htc : r.tool_calls = tc :: rest) :
    runLoop llm exec (fuel + 1) iteration mem made results =
      runLoop llm exec fuel (iteration + 1)
        (processRound exec (iteration + 1) (tc :: rest)
          (mem.add_assistant_message r.content (some (tc :: rest))) made results).1
        (processRound exec (iteration + 1) (tc :: rest)
          (mem.add_assistant_message r.content (some (tc :: rest))) made results).2.1
        (processRound exec (iteration + 1) (tc :: rest)
          (mem.add_assistant_message r.content (some (tc :: rest))) made results).2.2 := by
  simp only [runLoop, h, htc]

/-! Claim C3: a first response with no tool calls is returned unchanged and
exactly a user message and an assistant message are appended. -/

/-- C3: when the first model response declares no tool calls, run returns its
content unchanged (or the fixed sentinel when the content is empty), with
empty per-turn accumulators and exactly one model invocation, and the
memory gains exactly the user message followed by the final assistant
message (stated below the bound, where the appends do not trim). -/
theorem direct_answer_spec (llm : Nat → Except String LLMResponse)
    (exec : ToolCall → Except ToolErr ToolResult) (max_iterations : Nat)
    (mem0 : ConversationMemory) (msg : String) (r : LLMResponse)
    (hiter : 1 ≤ max_iterations) (h1 : llm 1 = Except.ok r)
    (htc : r.tool_calls = [])
    (hroom : mem0.messages.length + 2 ≤ mem0.max_messages) :
    Agent.run llm exec max_iterations mem0 msg =
      (AgentResponse.mk (if r.content = "" then noResponseSentinel else r.content) [] [],
        ConversationMemory.mk
          (mem0.messages ++ [Message.user msg,
            Message.assistant (if r.content = "" then noResponseSentinel else r.content)
              none])
          mem0.system_prompt mem0.max_messages,
        1) ∧
    (r.content ≠ "" → (Agent.run llm exec max_iterations mem0 msg).1.content = r.content) ∧
    (r.content = "" →
      (Agent.run llm exec max_iterations mem0 msg).1.content = noResponseSentinel) := by
  obtain ⟨k, rfl⟩ : ∃ k, max_iterations = k + 1 := ⟨max_iterations - 1, by omega⟩
  have hmain : Agent.run llm exec (k + 1) mem0 msg =
      (AgentResponse.mk (if r.content = "" then noResponseSentinel else r.content) [] [],
        ConversationMemory.mk
          (mem0.messages ++ [Message.user msg,
            Message.assistant (if r.content = "" then noResponseSentinel else r.content)
              none])
          mem0.system_prompt mem0.max_messages,
        1) := by
    unfold Agent.run
    rw [add_user_noTrim _ _ (by omega)]
    rw [runLoop_no_tools llm exec k 0 _ [] [] r h1 htc]
    rw [add_assistant_noTrim _ _ _ (by simp; omega)]
    simp [List.append_assoc]
  exact ⟨hmain, fun hne => by rw [hmain]; simp [hne], fun he => by rw [hmain]; simp [he]⟩

/-- Concrete inputs for the C3 witness. -/
def llmC3 : Nat → Except String LLMResponse :=
  fun _ => Except.ok (LLMResponse.mk "Hello there." [])

/-- A dispatcher oracle that always succeeds (never reached in the C3
witness). -/
def execOk : ToolCall → Except ToolErr ToolResult :=
  fun _ => Except.ok (ToolResult.mk true (some "4") none)

/-- C3 witness at concrete inputs: the turn returns the content unchanged and
appends exactly the user and assistant messages. -/
theorem direct_answer_witness :
    Agent.run llmC3 execOk 10 (ConversationMemory.mk [] none 100) "hi" =
      (AgentResponse.mk "Hello there." [] [],
        ConversationMemory.mk
          [Message.user "hi", Message.assistant "Hello there." none] none 100,
        1) := by
  have h := (direct_answer_spec llmC3 execOk 10 (ConversationMemory.mk [] none 100)
    "hi" (LLMResponse.mk "Hello there." []) (by omega) rfl rfl (by decide)).1
  rw [h]
  decide

/-! Claim C5: an unregistered tool name fails with NotFound, the loop
converts the failure and continues. -/

/-- C5: for a tool call whose name is not registered, the dispatcher fails
with a NotFound error whose message lists the available tool names; the
loop converts that failure into a failed ToolResult, appends its text
rendering as a tool-result message, and still performs the next model
invocation (here the second response ends the turn, so the run makes two
model calls and returns the failure inside its accumulators). -/
theorem unknown_tool_spec (parse : String → Option Parsed) (reg : ToolRegistry)
    (llm : Nat → Except String LLMResponse) (max_iterations : Nat)
    (mem0 : ConversationMemory) (msg : String) (e : TCEntry) (c1 c2 : String)
    (hmax : 2 ≤ max_iterations)
    (hget : reg.get (ToolCall.from_dict e).name = none)
    (h1 : llm 1 = Except.ok (LLMResponse.mk c1 [e]))
    (h2 : llm 2 = Except.ok (LLMResponse.mk c2 []))
    (hc2 : c2 ≠ "")
    (hroom : mem0.messages.length + 4 ≤ mem0.max_messages) :
    ToolDispatcher.execute parse reg (ToolCall.from_dict e) =
      Except.error (ToolErr.notFound (notFoundMessage reg (ToolCall.from_dict e).name)) ∧
    Agent.run llm (ToolDispatcher.execute parse reg) max_iterations mem0 msg =
      (AgentResponse.mk c2 [(ToolCall.from_dict e).name]
          [ToolResult.mk false none
            (some ("Tool not found: " ++ notFoundMessage reg (ToolCall.from_dict e).name))],
        ConversationMemory.mk
          (mem0.messages ++
            [Message.user msg,
             Message.assistant c1 (some [e]),
             Message.tool_result
               ("Error: Tool not found: " ++ notFoundMessage reg (ToolCall.from_dict e).name)
               (effectiveId 1 (ToolCall.from_dict e)),
             Message.assistant c2 none])
          mem0.system_prompt mem0.max_messages,
        2) := by
  have hexec : ToolDispatcher.execute parse reg (ToolCall.from_dict e) =
      Except.error (ToolErr.notFound (notFoundMessage reg (ToolCall.from_dict e).name)) := by
    unfold ToolDispatcher.execute
    rw [hget]
  refine ⟨hexec, ?_⟩
  have hres : execToResult (ToolDispatcher.execute parse reg) (ToolCall.from_dict e) =
      ToolResult.mk false none
        (some ("Tool not found: " ++ notFoundMessage reg (ToolCall.from_dict e).name)) := by
    unfold execToResult
    rw [hexec]
    rfl
  obtain ⟨k, rfl⟩ : ∃ k, max_iterations = k + 1 + 1 := ⟨max_iterations - 2, by omega⟩
  unfold Agent.run
  rw [add_user_noTrim _ _ (by omega)]
  rw [runLoop_tools llm _ (k + 1) 0 _ [] [] (LLMResponse.mk c1 [e]) e [] h1 rfl]
  rw [processRound_mem_noTrim _ _ _ _ _ _ (by rw [add_assistant_noTrim _ _ _ (by simp; omega)]; simp; omega)]
  rw [(processRound_acc _ _ _ _ _ _).1, (processRound_acc _ _ _ _ _ _).2]
  rw [add_assistant_noTrim _ _ _ (by simp; omega)]
  rw [runLoop_no_tools llm _ k 1 _ _ _ (LLMResponse.mk c2 []) h2 rfl]
  rw [add_assistant_noTrim _ _ _ (by simp [roundMessages]; omega)]
  simp only [roundMessages, roundNames, roundResults, List.map_cons, List.map_nil,
    hres, List.append_assoc, List.singleton_append, List.nil_append, List.cons_append]
  simp [ToolResult.to_message, hc2, ← String.append_assoc]

/-- Concrete model responses for the C5 witness: first a call to an
unregistered weather tool, then a plain answer. -/
def llmC5 : Nat → Except String LLMResponse :=
  fun i =>
    if i = 1 then
      Except.ok (LLMResponse.mk ""
        [TCEntry.dictFlat "weather" (ToolArgs.dict [("city", "Berlin")]) none])
    else Except.ok (LLMResponse.mk "No weather tool is available." [])

/-- C5 witness: against the registry holding only the echo tool, the weather
call yields the NotFound failure, the loop records it and finishes on the
second model call. -/
theorem unknown_tool_witness :
    Agent.run llmC5 (ToolDispatcher.execute parseFail regC8) 10
        (ConversationMemory.mk [] none 100) "weather in Berlin" =
      (AgentResponse.mk "No weather tool is available." ["weather"]
          [ToolResult.mk false none
            (some "Tool not found: Tool \x27weather\x27 not found. Available tools: echo")],
        ConversationMemory.mk
          [Message.user "weather in Berlin",
           Message.assistant ""
             (some [TCEntry.dictFlat "weather" (ToolArgs.dict [("city", "Berlin")]) none]),
           Message.tool_result
             "Error: Tool not found: Tool \x27weather\x27 not found. Available tools: echo"
             "call_1_weather",
           Message.assistant "No weather tool is available." none]
          none 100,
        2) := by
  have h := (unknown_tool_spec parseFail regC8 llmC5 10
    (ConversationMemory.mk [] none 100) "weather in Berlin"
    (TCEntry.dictFlat "weather" (ToolArgs.dict [("city", "Berlin")]) none)
    "" "No weather tool is available."
    (by omega) rfl rfl rfl (by decide) (by decide)).2
  rw [h]
  decide

/-! Claim C4: model-call failure handling in the two loops. -/

/-- One streaming-loop step when the model call fails: the LLMError is not
caught in run_stream, so it propagates to the caller. -/
theorem runStreamLoop_llm_error (llm : Nat → Except String LLMResponse)
    (chunks : List String) (exec : ToolCall → Except ToolErr ToolResult)
    (fuel iteration : Nat) (mem : ConversationMemory) (e : String)
    (h : llm (iteration + 1) = Except.error e) :
    runStreamLoop llm chunks exec (fuel + 1) iteration mem = Except.error e := by
  simp only [runStreamLoop, h]

/-- One streaming-loop step when the model requests tools: identical memory
protocol to Agent.run, then recurse. -/
theorem runStreamLoop_tools (llm : Nat → Except String LLMResponse)
    (chunks : List String) (exec : ToolCall → Except ToolErr ToolResult)
    (fuel iteration : Nat) (mem : ConversationMemory) (r : LLMResponse)
    (tc : TCEntry) (rest : List TCEntry)
    (h : llm (iteration + 1) = Except.ok r) (htc : r.tool_calls = tc :: rest) :
    runStreamLoop llm chunks exec (fuel + 1) iteration mem =
      runStreamLoop llm chunks exec fuel (iteration + 1)
        (processRound exec (iteration + 1) (tc :: rest)
          (mem.add_assistant_message r.content (some (tc :: rest))) [] []).1 := by
  simp only [runStreamLoop, h, htc]

/-- C4 (amended): when the model call fails after a completed tool round, the
standard loop Agent.run aborts the turn at once, without retrying, and
returns content carrying the failure text together with the tool calls and
results already accumulated this turn (two model invocations total); the
streaming loop Agent.run_stream also aborts at once without retrying, but
the LLMError propagates to the caller as an exception instead of being
turned into content. -/
theorem llm_failure_aborts_turn (llm : Nat → Except String LLMResponse)
    (chunks : List String) (exec : ToolCall → Except ToolErr ToolResult)
    (max_iterations : Nat) (mem0 : ConversationMemory) (msg : String)
    (e : TCEntry) (c1 errMsg : String)
    (hmax : 2 ≤ max_iterations)
    (h1 : llm 1 = Except.ok (LLMResponse.mk c1 [e]))
    (h2 : llm 2 = Except.error errMsg) :
    (Agent.run llm exec max_iterations mem0 msg).1 =
      AgentResponse.mk ("Sorry, I encountered an error: " ++ errMsg)
        [(ToolCall.from_dict e).name] [execToResult exec (ToolCall.from_dict e)] ∧
    (Agent.run llm exec max_iterations mem0 msg).2.2 = 2 ∧
    Agent.run_stream llm chunks exec max_iterations mem0 msg = Except.error errMsg := by
  obtain ⟨k, rfl⟩ : ∃ k, max_iterations = k + 1 + 1 := ⟨max_iterations - 2, by omega⟩
  refine ⟨?_, ?_, ?_⟩
  · unfold Agent.run
    rw [runLoop_tools llm exec (k + 1) 0 _ [] [] (LLMResponse.mk c1 [e]) e [] h1 rfl]
    rw [(processRound_acc _ _ _ _ _ _).1, (processRound_acc _ _ _ _ _ _).2]
    rw [runLoop_llm_error llm exec k 1 _ _ _ errMsg h2]
    simp [roundNames, roundResults]
  · unfold Agent.run
    rw [runLoop_tools llm exec (k + 1) 0 _ [] [] (LLMResponse.mk c1 [e]) e [] h1 rfl]
    rw [runLoop_llm_error llm exec k 1 _ _ _ errMsg h2]
  · unfold Agent.run_stream
    rw [runStreamLoop_tools llm chunks exec (k + 1) 0 _ (LLMResponse.mk c1 [e]) e [] h1 rfl]
    rw [runStreamLoop_llm_error llm chunks exec k 1 _ errMsg h2]

/-- Concrete model outcomes for the C4 witness: a tool round, then a
connection failure. -/
def llmC4 : Nat → Except String LLMResponse :=
  fun i =>
    if i = 1 then
      Except.ok (LLMResponse.mk ""
        [TCEntry.dictFlat "echo" (ToolArgs.dict [("text", "hi")]) (some "id7")])
    else Except.error "Failed to connect to Ollama: connection refused"

/-- C4 witness at concrete inputs. -/
theorem llm_failure_aborts_turn_witness :
    (Agent.run llmC4 execOk 10 (ConversationMemory.mk [] none 100) "hi").1 =
      AgentResponse.mk
        "Sorry, I encountered an error: Failed to connect to Ollama: connection refused"
        ["echo"] [ToolResult.mk true (some "4") none] ∧
    Agent.run_stream llmC4 [] execOk 10 (ConversationMemory.mk [] none 100) "hi" =
      Except.error "Failed to connect to Ollama: connection refused" := by
  have h := llm_failure_aborts_turn llmC4 [] execOk 10 (ConversationMemory.mk [] none 100)
    "hi" (TCEntry.dictFlat "echo" (ToolArgs.dict [("text", "hi")]) (some "id7"))
    "" "Failed to connect to Ollama: connection refused" (by omega) rfl rfl
  refine ⟨?_, h.2.2⟩
  rw [h.1]
  decide

/-- A model whose very first call fails. -/
def llmFail : Nat → Except String LLMResponse :=
  fun _ => Except.error "Failed to connect to Ollama: connection refused"

/-- C4 counterexample to the claim as stated: the claim asserts that in the
streaming loop too, a model-call failure ends the turn with content
communicating the failure rather than a propagated exception; but
run_stream has no try/except around llm.chat, so the turn ends with the
LLMError propagating to the caller (Except.error), not with content. -/
theorem run_stream_propagates_llm_error :
    Agent.run_stream llmFail [] execOk 3 (ConversationMemory.mk [] none 100) "hi" =
      Except.error "Failed to connect to Ollama: connection refused" := by
  rfl

/-! Claim C2: iteration exhaustion under an always-tool-calling model. -/

/-- The tool names accumulated over the given number of remaining iterations,
starting after the given iteration counter. -/
def roundsNames (f : Nat → LLMResponse) : Nat → Nat → List String
  | 0, _ => []
  | fuel + 1, iteration =>
    roundNames (f (iteration + 1)).tool_calls ++ roundsNames f fuel (iteration + 1)

/-- The tool results accumulated over the given number of remaining
iterations. -/
def roundsResults (f : Nat → LLMResponse) (exec : ToolCall → Except ToolErr ToolResult) :
    Nat → Nat → List ToolResult
  | 0, _ => []
  | fuel + 1, iteration =>
    roundResults exec (f (iteration + 1)).tool_calls ++
      roundsResults f exec fuel (iteration + 1)

/-- No assistant message without tool calls: the shape of every assistant
message the loop appends during tool rounds.  A final answer or the
exhaustion message would be a tool-call-free assistant message. -/
def noPlainAssistant (msgs : List Message) : Prop :=
  ∀ x ∈ msgs, x.role = MessageRole.assistant → x.tool_calls ≠ none

/-- Trimming never adds messages. -/
theorem trim_subset (m : ConversationMemory) :
    m.trim_if_needed.messages ⊆ m.messages := by
  unfold ConversationMemory.trim_if_needed
  by_cases h : m.messages.length > m.max_messages
  · rw [if_pos h]
    exact List.drop_subset _ _
  · rw [if_neg h]
    exact fun x hx => hx

/-- Appending a message that is not a plain assistant message preserves the
predicate. -/
theorem noPlain_append (msgs : List Message) (x : Message)
    (h : noPlainAssistant msgs)
    (hx : x.role = MessageRole.assistant → x.tool_calls ≠ none) :
    noPlainAssistant (msgs ++ [x]) := by
  intro y hy hr
  rcases List.mem_append.mp hy with hy1 | hy1
  · exact h y hy1 hr
  · have : y = x := List.mem_singleton.mp hy1
    subst this
    exact hx hr

/-- add_user_message preserves the predicate. -/
theorem noPlain_add_user (m : ConversationMemory) (c : String)
    (h : noPlainAssistant m.messages) :
    noPlainAssistant (m.add_user_message c).messages := by
  intro y hy hr
  have hy2 : y ∈ m.messages ++ [Message.user c] := trim_subset _ hy
  exact noPlain_append m.messages (Message.user c) h
    (fun hcon => by simp [Message.user] at hcon) y hy2 hr

/-- add_tool_result preserves the predicate. -/
theorem noPlain_add_tool (m : ConversationMemory) (c i : String)
    (h : noPlainAssistant m.messages) :
    noPlainAssistant (m.add_tool_result c i).messages := by
  intro y hy hr
  have hy2 : y ∈ m.messages ++ [Message.tool_result c i] := trim_subset _ hy
  exact noPlain_append m.messages (Message.tool_result c i) h
    (fun hcon => by simp [Message.tool_result] at hcon) y hy2 hr

/-- Appending an assistant message that carries tool calls preserves the
predicate. -/
theorem noPlain_add_assistant_some (m : ConversationMemory) (c : String)
    (tcs : List TCEntry) (h : noPlainAssistant m.messages) :
    noPlainAssistant (m.add_assistant_message c (some tcs)).messages := by
  intro y hy hr
  have hy2 : y ∈ m.messages ++ [Message.assistant c (some tcs)] := trim_subset _ hy
  exact noPlain_append m.messages (Message.assistant c (some tcs)) h
    (fun _ => by simp [Message.assistant]) y hy2 hr

/-- A tool round only appends tool-role messages, so it preserves the
predicate. -/
theorem noPlain_processRound (exec : ToolCall → Except ToolErr ToolResult)
    (iteration : Nat) :
    ∀ (tcs : List TCEntry) (mem : ConversationMemory) (made : List String)
      (results : List ToolResult),
      noPlainAssistant mem.messages →
      noPlainAssistant ((processRound exec iteration tcs mem made results).1).messages := by
  intro tcs
  induction tcs with
  | nil => intro mem made results h; rw [processRound]; exact h
  | cons e rest ih =>
    intro mem made results h
    rw [processRound]
    exact ih _ _ _ (noPlain_add_tool _ _ _ h)

/-- The loop under a model that requests tools on every response: it burns
all its fuel, returns the exhaustion message with the accumulators of all
rounds, performs one model call per fuel unit, and appends no
tool-call-free assistant message. -/
theorem runLoop_exhaust (f : Nat → LLMResponse)
    (exec : ToolCall → Except ToolErr ToolResult)
    (hf : ∀ i, (f i).tool_calls ≠ []) :
    ∀ (fuel iteration : Nat) (mem : ConversationMemory) (made : List String)
      (results : List ToolResult),
      (runLoop (fun i => Except.ok (f i)) exec fuel iteration mem made results).1 =
        AgentResponse.mk maxIterationsMessage (made ++ roundsNames f fuel iteration)
          (results ++ roundsResults f exec fuel iteration) ∧
      (runLoop (fun i => Except.ok (f i)) exec fuel iteration mem made results).2.2 =
        iteration + fuel ∧
      (noPlainAssistant mem.messages →
        noPlainAssistant
          ((runLoop (fun i => Except.ok (f i)) exec fuel iteration mem made
            results).2.1).messages) := by
  intro fuel
  induction fuel with
  | zero =>
    intro iteration mem made results
    rw [runLoop]
    exact ⟨by simp [roundsNames, roundsResults], by simp, fun h => h⟩
  | succ fuel ih =>
    intro iteration mem made results
    cases htc : (f (iteration + 1)).tool_calls with
    | nil => exact absurd htc (hf _)
    | cons tc rest =>
      rw [runLoop_tools (fun i => Except.ok (f i)) exec fuel iteration mem made results
        (f (iteration + 1)) tc rest rfl htc]
      have H := ih (iteration + 1)
        (processRound exec (iteration + 1) (tc :: rest)
          (mem.add_assistant_message (f (iteration + 1)).content (some (tc :: rest)))
          made results).1
        (processRound exec (iteration + 1) (tc :: rest)
          (mem.add_assistant_message (f (iteration + 1)).content (some (tc :: rest)))
          made results).2.1
        (processRound exec (iteration + 1) (tc :: rest)
          (mem.add_assistant_message (f (iteration + 1)).content (some (tc :: rest)))
          made results).2.2
      have hacc := processRound_acc exec (iteration + 1) (tc :: rest)
        (mem.add_assistant_message (f (iteration + 1)).content (some (tc :: rest)))
        made results
      refine ⟨?_, ?_, ?_⟩
      · rw [H.1, hacc.1, hacc.2]
        simp only [roundsNames, roundsResults, htc, List.append_assoc]
      · rw [H.2.1]
        omega
      · intro hmem
        exact H.2.2
          (noPlain_processRound _ _ _ _ _ _ (noPlain_add_assistant_some _ _ _ hmem))

/-- C2: with a model that requests a tool call on every response, a run with
max_iterations N performs exactly N model invocations (hence at most N,
and at most N tool-dispatch rounds, one per invocation), returns the fixed
exhaustion message together with the tool names and results accumulated
over those rounds, and appends no tool-call-free assistant message to
memory: starting from a memory whose assistant messages all carry tool
calls, every assistant message in the final memory still carries tool
calls, so the exhaustion message is never persisted as an assistant
turn. -/
theorem exhaustion_turn_spec (f : Nat → LLMResponse)
    (exec : ToolCall → Except ToolErr ToolResult) (N : Nat)
    (mem0 : ConversationMemory) (msg : String)
    (hf : ∀ i, (f i).tool_calls ≠ [])
    (hmem : noPlainAssistant mem0.messages) :
    (Agent.run (fun i => Except.ok (f i)) exec N mem0 msg).1 =
      AgentResponse.mk maxIterationsMessage (roundsNames f N 0)
        (roundsResults f exec N 0) ∧
    (Agent.run (fun i => Except.ok (f i)) exec N mem0 msg).2.2 = N ∧
    noPlainAssistant
      ((Agent.run (fun i => Except.ok (f i)) exec N mem0 msg).2.1).messages := by
  have H := runLoop_exhaust f exec hf N 0 (mem0.add_user_message msg) [] []
  unfold Agent.run
  refine ⟨?_, ?_, ?_⟩
  · rw [H.1]
    simp
  · rw [H.2.1]
    omega
  · exact H.2.2 (noPlain_add_user _ _ hmem)

/-- The always-tool-calling model for the C2 witness. -/
def fC2 : Nat → LLMResponse :=
  fun _ => LLMResponse.mk ""
    [TCEntry.dictFlat "echo" (ToolArgs.dict [("text", "hi")]) (some "id1")]

/-- C2 witness at concrete inputs: three iterations, three echo calls, the
exhaustion message, and no tool-call-free assistant message in memory. -/
theorem exhaustion_turn_witness :
    (Agent.run (fun i => Except.ok (fC2 i)) execOk 3
        (ConversationMemory.mk [] none 100) "hi").1 =
      AgentResponse.mk maxIterationsMessage ["echo", "echo", "echo"]
        [ToolResult.mk true (some "4") none, ToolResult.mk true (some "4") none,
          ToolResult.mk true (some "4") none] ∧
    (Agent.run (fun i => Except.ok (fC2 i)) execOk 3
        (ConversationMemory.mk [] none 100) "hi").2.2 = 3 := by
  have H := exhaustion_turn_spec fC2 execOk 3 (ConversationMemory.mk [] none 100) "hi"
    (fun i => by simp [fC2]) (fun x hx => absurd hx (List.not_mem_nil x))
  refine ⟨?_, H.2.1⟩
  rw [H.1]
  decide

/-! Claim C1: correlation of tool-result messages with earlier assistant
tool-call requests. -/

/-- A stored tool-call request matches a correlation id when the id the loop
would attach to its result equals it: the request id itself when truthy,
else the synthesized call_ iteration _ name id for the iteration that
processed it. -/
def entryMatches (e : TCEntry) (tcid : String) : Prop :=
  ∃ k : Nat, effectiveId k (ToolCall.from_dict e) = tcid

/-- Every tool-role message is preceded strictly earlier by an assistant
message one of whose tool-call requests matches its correlation id. -/
def toolLinked (msgs : List Message) : Prop :=
  ∀ (pre : List Message) (x : Message) (post : List Message),
    msgs = pre ++ x :: post → x.role = MessageRole.tool →
    ∀ tcid : String, x.tool_call_id = some tcid →
    ∃ a ∈ pre, a.role = MessageRole.assistant ∧
      ∃ tcs, a.tool_calls = some tcs ∧ ∃ e ∈ tcs, entryMatches e tcid

/-- A match site for a correlation id among the messages strictly before a
tool message: the index of an assistant message and the index of a
matching request inside its tool_calls. -/
def matchSite (pre : List Message) (tcid : String) (s : Nat × Nat) : Prop :=
  ∃ h1 : s.1 < pre.length, (pre.get ⟨s.1, h1⟩).role = MessageRole.assistant ∧
    ∃ tcs, (pre.get ⟨s.1, h1⟩).tool_calls = some tcs ∧
      ∃ h2 : s.2 < tcs.length, entryMatches (tcs.get ⟨s.2, h2⟩) tcid

/-- The claim as stated: every tool-role message has a correlation id
matching exactly one request located strictly earlier. -/
def toolLinkedUnique (msgs : List Message) : Prop :=
  ∀ (pre : List Message) (x : Message) (post : List Message),
    msgs = pre ++ x :: post → x.role = MessageRole.tool →
    ∀ tcid : String, x.tool_call_id = some tcid →
    ∃! s : Nat × Nat, matchSite pre tcid s

/-- Splitting a list extended by one element: the split point is either the
new last element or lies inside the original list. -/
theorem append_singleton_split {α : Type} (msgs : List α) (x : α)
    (pre : List α) (m : α) (post : List α)
    (h : pre ++ m :: post = msgs ++ [x]) :
    (pre = msgs ∧ m = x ∧ post = []) ∨
    (∃ post2, post = post2 ++ [x] ∧ msgs = pre ++ m :: post2) := by
  rcases List.eq_nil_or_concat post with hpost | ⟨post2, b, hpost⟩
  · subst hpost
    have := List.append_inj' h (by simp)
    exact Or.inl ⟨this.1, by simpa using this.2, rfl⟩
  · rw [List.concat_eq_append] at hpost
    subst hpost
    rw [show m :: (post2 ++ [b]) = (m :: post2) ++ [b] from rfl,
      ← List.append_assoc] at h
    have := List.append_inj' h (by simp)
    refine Or.inr ⟨post2, ?_, this.1.symm⟩
    have hb : b = x := by simpa using this.2
    rw [hb]

/-- Appending a non-tool message preserves the linking invariant. -/
theorem toolLinked_append_nonTool (msgs : List Message) (x : Message)
    (h : toolLinked msgs) (hx : x.role ≠ MessageRole.tool) :
    toolLinked (msgs ++ [x]) := by
  intro pre m post hsplit hrole tcid hid
  rcases append_singleton_split msgs x pre m post hsplit.symm with
    ⟨hpre, hmx, hpost⟩ | ⟨post2, hpost, hmsgs⟩
  · subst hmx; exact absurd hrole hx
  · exact h pre m post2 hmsgs hrole tcid hid

/-- Appending a tool message whose id already has a matching earlier request
preserves the linking invariant. -/
theorem toolLinked_append_tool (msgs : List Message) (x : Message)
    (h : toolLinked msgs)
    (hx : ∀ tcid, x.tool_call_id = some tcid →
      ∃ a ∈ msgs, a.role = MessageRole.assistant ∧
        ∃ tcs, a.tool_calls = some tcs ∧ ∃ e ∈ tcs, entryMatches e tcid) :
    toolLinked (msgs ++ [x]) := by
  intro pre m post hsplit hrole tcid hid
  rcases append_singleton_split msgs x pre m post hsplit.symm with
    ⟨hpre, hmx, hpost⟩ | ⟨post2, hpost, hmsgs⟩
  · subst hpre; subst hmx; exact hx tcid hid
  · exact h pre m post2 hmsgs hrole tcid hid

/-- The empty message list is trivially linked. -/
theorem toolLinked_nil : toolLinked [] := by
  intro pre x post h
  cases pre <;> simp at h

/-- A tool round preserves the linking invariant while no trimming happens:
each appended tool-result message carries the effective id of one of the
requests stored in the assistant message that opened the round. -/
theorem toolLinked_processRound (exec : ToolCall → Except ToolErr ToolResult)
    (iteration : Nat) :
    ∀ (rest : List TCEntry) (tcs : List TCEntry) (mem : ConversationMemory)
      (made : List String) (results : List ToolResult),
      mem.messages.length + rest.length ≤ mem.max_messages →
      toolLinked mem.messages →
      (∃ a ∈ mem.messages, a.role = MessageRole.assistant ∧ a.tool_calls = some tcs) →
      (∀ e ∈ rest, e ∈ tcs) →
      toolLinked ((processRound exec iteration rest mem made results).1).messages := by
  intro rest
  induction rest with
  | nil =>
    intro tcs mem made results _ h _ _
    rw [processRound]
    exact h
  | cons e rest2 ih =>
    intro tcs mem made results hroom h ha hsub
    rw [processRound]
    have hnotrim := add_tool_result_noTrim mem
      (execToResult exec (ToolCall.from_dict e)).to_message
      (effectiveId iteration (ToolCall.from_dict e)) (by simp at hroom ⊢; omega)
    apply ih tcs _ _ _ ?_ ?_ ?_ ?_
    · rw [hnotrim]
      simp at hroom ⊢
      omega
    · rw [hnotrim]
      refine toolLinked_append_tool _ _ h ?_
      intro tcid hid
      obtain ⟨a, hamem, harole, hacalls⟩ := ha
      refine ⟨a, hamem, harole, tcs, hacalls, e, hsub e (List.mem_cons_self e rest2), ?_⟩
      refine ⟨iteration, ?_⟩
      simpa [Message.tool_result] using hid
    · obtain ⟨a, hamem, harole, hacalls⟩ := ha
      rw [hnotrim]
      exact ⟨a, List.mem_append_left _ hamem, harole, hacalls⟩
    · exact fun x hx => hsub x (List.mem_cons_of_mem e hx)

/-- The number of messages the loop appends from a given point on, read off
the model oracle: one assistant message per round plus one tool result per
requested call, and one final assistant message when a response without
tool calls arrives; nothing after a model failure or on exhaustion. -/
def loopAppendCount (llm : Nat → Except String LLMResponse) : Nat → Nat → Nat
  | 0, _ => 0
  | fuel + 1, iteration =>
    match llm (iteration + 1) with
    | Except.error _ => 0
    | Except.ok r =>
      if r.tool_calls.isEmpty then 1
      else 1 + r.tool_calls.length + loopAppendCount llm fuel (iteration + 1)

/-- The loop preserves the linking invariant while its appends stay within
the memory bound. -/
theorem toolLinked_runLoop (llm : Nat → Except String LLMResponse)
    (exec : ToolCall → Except ToolErr ToolResult) :
    ∀ (fuel iteration : Nat) (mem : ConversationMemory) (made : List String)
      (results : List ToolResult),
      mem.messages.length + loopAppendCount llm fuel iteration ≤ mem.max_messages →
      toolLinked mem.messages →
      toolLinked ((runLoop llm exec fuel iteration mem made results).2.1).messages := by
  intro fuel
  induction fuel with
  | zero =>
    intro iteration mem made results _ h
    rw [runLoop]
    exact h
  | succ fuel ih =>
    intro iteration mem made results hroom h
    cases hllm : llm (iteration + 1) with
    | error e =>
      rw [runLoop_llm_error llm exec fuel iteration mem made results e hllm]
      exact h
    | ok r =>
      cases htc : r.tool_calls with
      | nil =>
        rw [runLoop_no_tools llm exec fuel iteration mem made results r hllm htc]
        have hcount : loopAppendCount llm (fuel + 1) iteration = 1 := by
          simp [loopAppendCount, hllm, htc]
        rw [hcount] at hroom
        rw [add_assistant_noTrim _ _ _ (by omega)]
        refine toolLinked_append_nonTool _ _ h ?_
        simp [Message.assistant]
      | cons tc rest =>
        rw [runLoop_tools llm exec fuel iteration mem made results r tc rest hllm htc]
        have hcount : loopAppendCount llm (fuel + 1) iteration =
            1 + (tc :: rest).length + loopAppendCount llm fuel (iteration + 1) := by
          simp only [loopAppendCount, hllm, htc]
          rfl
        rw [hcount] at hroom
        have hasst := add_assistant_noTrim mem r.content (some (tc :: rest))
          (by simp at hroom ⊢; omega)
        have hmem2 := processRound_mem_noTrim exec (iteration + 1) (tc :: rest)
          (mem.add_assistant_message r.content (some (tc :: rest))) made results
          (by rw [hasst]; simp at hroom ⊢; omega)
        apply ih (iteration + 1) _ _ _ ?_ ?_
        · rw [hmem2, hasst]
          simp only [List.length_append, roundMessages, List.length_map,
            List.length_singleton, List.length_cons, List.length_nil]
          simp only [List.length_cons] at hroom
          omega
        · apply toolLinked_processRound exec (iteration + 1) (tc :: rest) (tc :: rest)
            _ made results ?_ ?_ ?_ ?_
          · rw [hasst]
            simp at hroom ⊢
            omega
          · rw [hasst]
            refine toolLinked_append_nonTool _ _ h ?_
            simp [Message.assistant]
          · rw [hasst]
            refine ⟨Message.assistant r.content (some (tc :: rest)), ?_, rfl, rfl⟩
            exact List.mem_append_right _ (List.mem_singleton_self _)
          · exact fun x hx => hx

/-- C1 (amended): provided the run stays within the retained-message bound
(so no trimming occurs during the turn), every tool-role message in the
conversation memory after Agent.run is preceded strictly earlier by an
assistant message whose tool_calls contain a request matching its
tool_call_id (the request id itself when truthy, else the synthesized
call_ iteration _ name id); when trimming occurs, the opening assistant
message can be evicted while its tool results survive, so the claimed
invariant fails, and the match need not be unique since the model may
reuse ids. -/
theorem tool_messages_linked (llm : Nat → Except String LLMResponse)
    (exec : ToolCall → Except ToolErr ToolResult) (max_iterations : Nat)
    (mem0 : ConversationMemory) (msg : String)
    (hroom : mem0.messages.length + 1 + loopAppendCount llm max_iterations 0 ≤
      mem0.max_messages)
    (h0 : toolLinked mem0.messages) :
    toolLinked ((Agent.run llm exec max_iterations mem0 msg).2.1).messages := by
  unfold Agent.run
  have huser := add_user_noTrim mem0 msg (by omega)
  apply toolLinked_runLoop llm exec max_iterations 0 _ [] [] ?_ ?_
  · rw [huser]
    simp
    omega
  · rw [huser]
    refine toolLinked_append_nonTool _ _ h0 ?_
    simp [Message.user]

/-- Concrete model outcomes for the C1 witness and counterexample: one tool
round carrying an explicit correlation id, then a final answer. -/
def llmC1 : Nat → Except String LLMResponse :=
  fun i =>
    if i = 1 then
      Except.ok (LLMResponse.mk ""
        [TCEntry.dictFlat "echo" (ToolArgs.dict [("text", "hi")]) (some "idA")])
    else Except.ok (LLMResponse.mk "done" [])

/-- C1 witness: a run with ample bound keeps every tool message linked. -/
theorem tool_messages_linked_witness :
    toolLinked
      ((Agent.run llmC1 execOk 3 (ConversationMemory.mk [] none 100) "hi").2.1).messages := by
  apply tool_messages_linked llmC1 execOk 3 (ConversationMemory.mk [] none 100) "hi"
  · decide
  · exact toolLinked_nil

/-- C1 counterexample to the claim as stated: with the retained-message bound
at 2, the same conversation trims away first the user message and then the
assistant message that carried the tool-call request, leaving the
tool-result message first in memory with no earlier assistant message at
all, let alone exactly one matching request. -/
theorem tool_message_orphaned_by_trim :
    ¬ toolLinkedUnique
      ((Agent.run llmC1 execOk 2 (ConversationMemory.mk [] none 2) "hi").2.1).messages := by
  intro h
  have hmem : ((Agent.run llmC1 execOk 2
      (ConversationMemory.mk [] none 2) "hi").2.1).messages =
      [Message.tool_result "4" "idA", Message.assistant "done" none] := by decide
  rw [hmem] at h
  obtain ⟨s, hs, _⟩ := h [] (Message.tool_result "4" "idA")
    [Message.assistant "done" none] rfl rfl "idA" rfl
  obtain ⟨h1, _⟩ := hs
  simp at h1

end PersonalCli
